import Mathlib

/-!
Verification of the settings service
(`src/api/server/services/settings/settings.js`) of the cezerin
storefront.

The service is embedded shallowly:

* A JavaScript object (a MongoDB document, an update payload, a patch)
  is a `Doc`: an association list from string keys to `Value`s, looked
  up first-match.  A key whose value is `undefined` is indistinguishable
  from an absent key through every operation the service performs
  (`data[key] !== undefined` tests, JSON serialisation), so `undefined`
  is modelled as absence of the key; in particular the
  `{_id: undefined}` overlay of `changeProperties` is modelled as
  removal of the `_id` binding.
* JavaScript values are `Value.str / num / bool / null`; numbers are
  modelled as integers (no claim depends on float behaviour).
* The mutable service/database state is a `ServiceState`:
  `this.defaultSettings` (which the source mutates!) and the singleton
  `settings` collection (`none` = zero documents).
* External collaborators that are code of this repository but not under
  `src/` (`lib/parse`, `lib/settings`) and the Node `url` module are
  modelled from the spec; their definitions carry a
  `Modelled from the spec:` doc comment.
-/

/-- A JavaScript runtime value as far as the settings service observes
it: strings, numbers (modelled as integers), booleans and `null`. -/
inductive Value where
  | str : String → Value
  | num : Int → Value
  | bool : Bool → Value
  | null : Value
deriving DecidableEq, Repr

/-- A JavaScript object / MongoDB document: an ordered association list
from keys to values. Lookup is first-match; JS objects never hold
duplicate keys, and the operations below preserve that. -/
abbrev Doc := List (String × Value)

/-- Property lookup `o[k]`: `none` models `undefined` (key absent). -/
def getKey : Doc → String → Option Value
  | [], _ => none
  | (k, v) :: rest, key => if k = key then some v else getKey rest key

/-- Property write `o[k] = v`: overwrites the first binding of `k` in
place (keeping its position, as JS does) or appends a new binding. -/
def setKey : Doc → String → Value → Doc
  | [], key, v => [(key, v)]
  | (k, w) :: rest, key, v =>
      if k = key then (k, v) :: rest else (k, w) :: setKey rest key v

/-- Removal of a binding; models assigning `undefined` to a key (the
resulting object is indistinguishable from one without the key for
every operation the service performs). -/
def delKey : Doc → String → Doc
  | [], _ => []
  | (k, w) :: rest, key =>
      if k = key then delKey rest key else (k, w) :: delKey rest key

/-- `Object.assign(target, source)`: copies the bindings of `source`
into `target` in order, mutating `target`. -/
def objAssign (target source : Doc) : Doc :=
  source.foldl (fun t kv => setKey t kv.1 kv.2) target

/-- `Object.keys`. -/
def keys (d : Doc) : List String := d.map Prod.fst

/-- JavaScript truthiness of a `Value` (`""`, `0`, `false`, `null` are
falsy). -/
def truthy : Value → Bool
  | .str s => s ≠ ""
  | .num n => n ≠ 0
  | .bool b => b
  | .null => false

/-- JavaScript `a || b`. -/
def jsOr (a b : Value) : Value := if truthy a then a else b

/-- Modelled from the spec: `parse.getString` of `lib/parse`, which is
not under `src/`. Per §6 (`parseString(any) -> string`) and §4.2
("coerce to string; non-string/absent-after-coercion becomes empty
string per the string-coercion utility's contract"): a string is kept,
anything else coerces to the empty string. -/
def parseGetString : Value → String
  | .str s => s
  | _ => ""

/-- Modelled from the spec: `parse.getNumberIfPositive` of `lib/parse`,
which is not under `src/`. Per §6 (`parsePositiveNumber(any) ->
number|invalid-sentinel`): a positive number is kept, anything else
yields the invalid sentinel, `null`. -/
def getNumberIfPositive : Value → Value
  | .num n => if 0 < n then .num n else .null
  | _ => .null

/-- Modelled from the spec: `parse.getBooleanIfValid` of `lib/parse`,
which is not under `src/`. Per §6 (`parseBoolean(any, default) ->
boolean`) and §4.2 ("coerce to boolean with default `false` if
invalid"). -/
def getBooleanIfValid (v : Value) (dflt : Bool) : Bool :=
  match v with
  | .bool b => b
  | _ => dflt

/-- Modelled from the spec: `settings.filesUploadUrl` of
`lib/settings`, which is not under `src/` — the "fixed upload-path
segment" of §6. Its concrete value is not in the sources; every theorem
below treats it symbolically, the literal is a placeholder. -/
def filesUploadUrl : String := "/upload"

/-- Modelled from the spec: `settings.filesUploadPath` of
`lib/settings`, which is not under `src/` — the upload directory.
Every theorem below treats it symbolically, the literal is a
placeholder. -/
def filesUploadPath : String := "public/content"

/-- String prefix test, written over the character lists so that it
reduces inside the kernel (the core `String.startsWith` is opaque to
definitional unfolding). -/
def strStartsWith (s pre : String) : Bool :=
  pre.data.isPrefixOf s.data

/-- Scheme-and-host part of an absolute http(s) URL, `none` for other
base strings. Helper for `urlResolve`. -/
def originOf (base : String) : Option String :=
  if strStartsWith base "http://" then
    some (String.mk
      ("http://".data ++ (base.data.drop 7).takeWhile (fun c => c ≠ '/')))
  else if strStartsWith base "https://" then
    some (String.mk
      ("https://".data ++ (base.data.drop 8).takeWhile (fun c => c ≠ '/')))
  else none

/-- Modelled from the spec: Node's `url.resolve(base, ref)` (the `url`
module is an external collaborator; §6: "Logo URLs are absolute URLs
resolved as `domain` + fixed upload-path segment + `/` + `logo_file`").
Covers the cases the service exercises: an already-absolute reference
is returned as is; against an absolute http(s) base, a root-relative
reference replaces the base's path; other combinations are returned
unresolved. -/
def urlResolve (base ref : String) : String :=
  if strStartsWith ref "http://" || strStartsWith ref "https://" then ref
  else
    match originOf base with
    | some origin =>
        if strStartsWith ref "/" then origin ++ ref
        else origin ++ "/" ++ ref
    | none => ref

/-- The Defaults Table: `this.defaultSettings` built by the
`SettingsService` constructor, verbatim from the source. -/
def defaultSettings : Doc := [
  ("domain", .str ""),
  ("logo_file", .null),
  ("language", .str "en"),
  ("currency_code", .str "USD"),
  ("currency_symbol", .str "$"),
  ("currency_format", .str "${amount}"),
  ("thousand_separator", .str ","),
  ("decimal_separator", .str "."),
  ("decimal_number", .num 2),
  ("timezone", .str "Asia/Singapore"),
  ("date_format", .str "MMMM D, YYYY"),
  ("time_format", .str "h:mm a"),
  ("default_shipping_country", .str "SG"),
  ("default_shipping_state", .str ""),
  ("default_shipping_city", .str ""),
  ("default_product_sorting", .str "stock_status,price,position"),
  ("product_fields", .str "path,id,name,category_id,category_name,sku,images,enabled,discontinued,stock_status,stock_quantity,price,on_sale,regular_price,attributes,tags,position"),
  ("products_limit", .num 30),
  ("weight_unit", .str "kg"),
  ("length_unit", .str "cm"),
  ("hide_billing_address", .bool false),
  ("order_confirmation_copy_to", .str "")
]

/-- The mutable state the service closes over: `this.defaultSettings`
(the source mutates it, so it is threaded explicitly) and the singleton
`settings` collection (`none` = zero documents, matching
`countDocuments({}) === 0` and `findOne()` returning `null`). -/
structure ServiceState where
  defaults : Doc
  dbSettings : Option Doc
deriving DecidableEq, Repr

/-- The service state as constructed: pristine Defaults Table over a
given collection content. -/
def initialState (db : Option Doc) : ServiceState :=
  { defaults := defaultSettings, dbSettings := db }

/-- The keys routed to `parse.getString` by the `switch` of
`getValidDocumentForUpdate`, in source order. -/
def stringFields : List String := [
  "language", "currency_code", "domain", "currency_symbol",
  "currency_format", "thousand_separator", "decimal_separator",
  "timezone", "date_format", "time_format", "default_shipping_country",
  "default_shipping_state", "default_shipping_city",
  "default_product_sorting", "product_fields", "weight_unit",
  "length_unit", "logo_file", "order_confirmation_copy_to"
]

/-- The per-key branch of the `switch` in `getValidDocumentForUpdate`:
`some f` is the coercion applied to `data[key]`, `none` is the
`default:` branch (`throw new Error('Unknown setting: ...')`). -/
def coerceRule (key : String) : Option (Value → Value) :=
  if key ∈ stringFields then
    some (fun v => .str (parseGetString v))
  else if key = "decimal_number" then
    some (fun v => jsOr (getNumberIfPositive v) (.num 0))
  else if key = "products_limit" then
    some (fun v => getNumberIfPositive v)
  else if key = "hide_billing_address" then
    some (fun v => .bool (getBooleanIfValid v false))
  else none

/-- Coercion of a single recognized field's value (`none` when the key
has no `switch` branch). -/
def coerceField (key : String) (v : Value) : Option Value :=
  (coerceRule key).map (fun f => f v)

/-- The `Object.keys(this.defaultSettings).forEach` loop of
`getValidDocumentForUpdate`: walks the given key list; a key present in
`data` is coerced and written to the output object in iteration order;
a present key without a `switch` branch throws, discarding everything
(the exception escapes the `forEach`). -/
def validateKeys (data : Doc) : List String → Except String Doc
  | [] => .ok []
  | k :: ks =>
    match getKey data k with
    | none => validateKeys data ks
    | some v =>
      match coerceRule k with
      | none => .error ("Unknown setting: " ++ k)
      | some f => (validateKeys data ks).map (fun rest => (k, f v) :: rest)

/-- Outcome of `getValidDocumentForUpdate`. The source *returns* (does
not throw) `new Error('Required fields are missing')` on empty input —
`errReturned` keeps that distinct from an actually thrown error. -/
inductive ValidatorOut where
  | errReturned : String → ValidatorOut
  | thrown : String → ValidatorOut
  | ok : Doc → ValidatorOut
deriving DecidableEq, Repr

/-- `getValidDocumentForUpdate(data)`, translated from the source:
empty input returns (not throws) an `Error`; otherwise the Defaults
Table keys are walked, coercing the fields present in `data`. -/
def getValidDocumentForUpdate (defaults data : Doc) : ValidatorOut :=
  if data.isEmpty then .errReturned "Required fields are missing"
  else
    match validateKeys data (keys defaults) with
    | .error m => .thrown m
    | .ok s => .ok s

/-- The first half of `changeProperties`: the
`Object.assign(this.defaultSettings, settingsFromDB, {_id: undefined})`
merge followed by the `domain` null/undefined normalisation. -/
def mergedData (defaults : Doc) (settingsFromDB : Option Doc) : Doc :=
  match getKey (delKey (objAssign defaults (settingsFromDB.getD [])) "_id")
      "domain" with
  | none =>
      setKey (delKey (objAssign defaults (settingsFromDB.getD [])) "_id")
        "domain" (.str "")
  | some .null =>
      setKey (delKey (objAssign defaults (settingsFromDB.getD [])) "_id")
        "domain" (.str "")
  | some _ => delKey (objAssign defaults (settingsFromDB.getD [])) "_id"

/-- `changeProperties(settingsFromDB)`, translated from the source.
Mutates `this.defaultSettings` via `Object.assign` and returns the very
same object, so the returned document is simultaneously the view and
the new `defaults` state. `none` models the `TypeError` Node's
`url.resolve` throws when `data.domain` is not a string (possible only
for a persisted `domain` outside the §3 schema). -/
def changeProperties (defaults : Doc) (settingsFromDB : Option Doc) :
    Option Doc :=
  -- `data.logo_file && data.logo_file.length > 0`: only a non-empty
  -- string passes (a truthy non-string has no `.length`, and
  -- `undefined > 0` is false).
  match getKey (mergedData defaults settingsFromDB) "logo_file" with
  | some (.str s) =>
      if s = "" then
        some (setKey (mergedData defaults settingsFromDB) "logo" .null)
      else
        match getKey (mergedData defaults settingsFromDB) "domain" with
        | some (.str d) =>
            some (setKey (mergedData defaults settingsFromDB) "logo"
              (.str (urlResolve d (filesUploadUrl ++ "/" ++ s))))
        | _ => none
  | _ => some (setKey (mergedData defaults settingsFromDB) "logo" .null)

/-- `getSettings()`: `findOne()` then `changeProperties`; the view and
the mutated Defaults Table are the same object. -/
def getSettings (st : ServiceState) : Option (Doc × ServiceState) :=
  match changeProperties st.defaults st.dbSettings with
  | some view => some (view, { st with defaults := view })
  | none => none

/-- `insertDefaultSettingsIfEmpty()`: seeds the collection with
`this.defaultSettings` when `countDocuments({})` is zero. -/
def insertDefaultSettingsIfEmpty (st : ServiceState) : ServiceState :=
  match st.dbSettings with
  | none => { st with dbSettings := some st.defaults }
  | some _ => st

/-- `updateOne({}, {$set: patch}, {upsert: true})` on the singleton
collection: field-level set on the existing document, or creation from
the patch. (The driver-generated `_id` is not modelled: the view strips
`_id` anyway.) -/
def updateOneSetUpsert (db : Option Doc) (patch : Doc) : Option Doc :=
  match db with
  | some d => some (objAssign d patch)
  | none => some patch

/-- The tail of `updateSettings` after validation: seed if empty, apply
the `$set` upsert, re-read through `getSettings`. -/
def runUpdate (patch : Doc) (st : ServiceState) :
    Except String (Doc × ServiceState) :=
  let st1 := insertDefaultSettingsIfEmpty st
  let st2 : ServiceState :=
    { st1 with dbSettings := updateOneSetUpsert st1.dbSettings patch }
  match getSettings st2 with
  | some (view, st3) => .ok (view, st3)
  | none => .error "TypeError"

/-- `updateSettings(data)`, translated from the source. A thrown
validator error propagates; the *returned* `Error` object of the
empty-input branch flows on as the patch — an `Error` has no enumerable
own properties, so the `$set` receives no fields — and the update still
seeds and resolves with a view. -/
def updateSettings (data : Doc) (st : ServiceState) :
    Except String (Doc × ServiceState) :=
  match getValidDocumentForUpdate st.defaults data with
  | .thrown msg => .error msg
  | .errReturned _ => runUpdate [] st
  | .ok patch => runUpdate patch st

/-- The `data.logo_file && data.logo_file.length > 0` test used by
`deleteLogo` (same shape as in `changeProperties`): the non-empty
string content of `logo_file`, if any. -/
def logoFileOf (data : Doc) : Option String :=
  match getKey data "logo_file" with
  | some (.str s) => if s = "" then none else some s
  | _ => none

/-- Observable effects of one `deleteLogo()` call: the path handed to
`fs.unlink`, if any, and the argument handed to `updateSettings`, if
any. -/
structure DeleteLogoEffects where
  unlinkAttempted : Option String
  updateCalled : Option Doc
deriving DecidableEq, Repr

/-- `deleteLogo()`, translated from the source. `unlinkErr` says
whether `fs.unlink` reports an error; the callback ignores `err`
entirely and calls `updateSettings({logo_file: null})` either way, so
the parameter is (deliberately) unused. `path.resolve` is modelled as
the joined path it is applied to. -/
def deleteLogo (unlinkErr : Bool) (st : ServiceState) :
    Option (DeleteLogoEffects × ServiceState) :=
  match getSettings st with
  | none => none
  | some (data, st1) =>
    match logoFileOf data with
    | none => some ({ unlinkAttempted := none, updateCalled := none }, st1)
    | some s =>
      let arg : Doc := [("logo_file", Value.null)]
      match updateSettings arg st1 with
      | .ok (_, st2) =>
          some ({ unlinkAttempted := some (filesUploadPath ++ "/" ++ s),
                  updateCalled := some arg }, st2)
      | .error _ => none

/-! ## Basic lemmas about the object model -/

theorem getKey_setKey (d : Doc) (k k' : String) (v : Value) :
    getKey (setKey d k v) k' = if k' = k then some v else getKey d k' := by
  induction d with
  | nil =>
    by_cases h : k = k'
    · subst h; simp [setKey, getKey]
    · simp [setKey, getKey, h, Ne.symm h]
  | cons hd tl ih =>
    obtain ⟨a, w⟩ := hd
    by_cases hak : a = k
    · subst hak
      by_cases h : a = k'
      · subst h; simp [setKey, getKey]
      · simp [setKey, getKey, h, Ne.symm h]
    · by_cases h : a = k'
      · subst h
        simp [setKey, getKey, hak, Ne.symm hak]
      · simp [setKey, getKey, hak, h, ih]

theorem getKey_delKey (d : Doc) (k k' : String) :
    getKey (delKey d k) k' = if k' = k then none else getKey d k' := by
  induction d with
  | nil => simp [delKey, getKey]
  | cons hd tl ih =>
    obtain ⟨a, w⟩ := hd
    by_cases hak : a = k
    · subst hak
      by_cases h : k' = a
      · subst h; simp [delKey, getKey, ih]
      · simp [delKey, getKey, ih, h, Ne.symm h]
    · by_cases h : k' = a
      · subst h
        simp [delKey, getKey, hak, ih, Ne.symm hak]
      · simp [delKey, getKey, hak, ih, h, Ne.symm h]

theorem objAssign_nil (t : Doc) : objAssign t [] = t := rfl

theorem objAssign_cons (t : Doc) (a : String) (b : Value) (rest : Doc) :
    objAssign t ((a, b) :: rest) = objAssign (setKey t a b) rest := rfl

theorem getKey_objAssign_of_none (t s : Doc) (k : String)
    (h : getKey s k = none) : getKey (objAssign t s) k = getKey t k := by
  induction s generalizing t with
  | nil => rfl
  | cons hd tl ih =>
    obtain ⟨a, w⟩ := hd
    rw [objAssign_cons]
    simp only [getKey] at h
    by_cases hak : a = k
    · simp [hak] at h
    · rw [ih (setKey t a w) (by simpa [hak] using h), getKey_setKey]
      simp [Ne.symm hak]

theorem getKey_objAssign_ne_none (t s : Doc) (k : String)
    (h : getKey t k ≠ none) : getKey (objAssign t s) k ≠ none := by
  induction s generalizing t with
  | nil => exact h
  | cons hd tl ih =>
    obtain ⟨a, w⟩ := hd
    rw [objAssign_cons]
    refine ih (setKey t a w) ?_
    rw [getKey_setKey]
    by_cases hka : k = a <;> simp [hka, h]

theorem mem_keys_iff (d : Doc) (k : String) :
    k ∈ keys d ↔ getKey d k ≠ none := by
  induction d with
  | nil => simp [keys, getKey]
  | cons hd tl ih =>
    obtain ⟨a, w⟩ := hd
    have hk : keys ((a, w) :: tl) = a :: keys tl := rfl
    rw [hk, List.mem_cons, ih]
    by_cases h : a = k
    · subst h; simp [getKey]
    · simp [getKey, h, Ne.symm h]

theorem getKey_objAssign_of_some (t s : Doc) (k : String) (v : Value)
    (hnd : (keys s).Nodup) (h : getKey s k = some v) :
    getKey (objAssign t s) k = some v := by
  induction s generalizing t with
  | nil => simp [getKey] at h
  | cons hd tl ih =>
    obtain ⟨a, w⟩ := hd
    rw [objAssign_cons]
    have hk : keys ((a, w) :: tl) = a :: keys tl := rfl
    rw [hk, List.nodup_cons] at hnd
    simp only [getKey] at h
    by_cases hak : a = k
    · subst hak
      simp only [if_pos rfl] at h
      have hw : w = v := by injection h
      subst hw
      have htl : getKey tl a = none := by
        by_contra hc
        exact hnd.1 ((mem_keys_iff tl a).2 hc)
      rw [getKey_objAssign_of_none _ _ _ htl, getKey_setKey, if_pos rfl]
    · rw [if_neg hak] at h
      exact ih (setKey t a w) hnd.2 h

/-! ## Lemmas about the update validator -/

theorem validateKeys_lookup (data : Doc) (ks : List String) (p : Doc)
    (h : validateKeys data ks = .ok p) (k : String) :
    getKey p k =
      if k ∈ ks then (getKey data k).bind (coerceField k) else none := by
  induction ks generalizing p with
  | nil =>
    simp only [validateKeys, Except.ok.injEq] at h
    subst h
    simp [getKey]
  | cons a ks ih =>
    simp only [validateKeys] at h
    cases hd : getKey data a with
    | none =>
      rw [hd] at h
      rw [ih p h]
      by_cases hk : k = a
      · subst hk; simp [hd, List.mem_cons]
      · simp [List.mem_cons, hk]
    | some v =>
      rw [hd] at h
      cases hr : coerceRule a with
      | none => rw [hr] at h; cases h
      | some f =>
        rw [hr] at h
        cases hv : validateKeys data ks with
        | error e => rw [hv] at h; simp [Except.map] at h
        | ok rest =>
          rw [hv] at h
          have hp : p = (a, f v) :: rest := by
            have : Except.ok (ε := String) ((a, f v) :: rest) = .ok p := by
              simpa [Except.map] using h
            simpa using this.symm
          subst hp
          by_cases hk : k = a
          · subst hk
            simp [getKey, hd, coerceField, hr, List.mem_cons]
          · have hg : getKey ((a, f v) :: rest) k = getKey rest k := by
              simp [getKey, Ne.symm hk]
            rw [hg, ih rest hv]
            simp [List.mem_cons, hk]

theorem validateKeys_isOk (data : Doc) (ks : List String)
    (h : ∀ k ∈ ks, (coerceRule k).isSome) :
    ∃ p, validateKeys data ks = .ok p := by
  induction ks with
  | nil => exact ⟨[], rfl⟩
  | cons a ks ih =>
    obtain ⟨p, hp⟩ := ih (fun k hk => h k (List.mem_cons_of_mem a hk))
    cases hd : getKey data a with
    | none => exact ⟨p, by simp [validateKeys, hd, hp]⟩
    | some v =>
      have ha := h a (List.mem_cons_self a ks)
      cases hr : coerceRule a with
      | none => rw [hr] at ha; simp at ha
      | some f =>
        exact ⟨(a, f v) :: p, by simp [validateKeys, hd, hr, hp, Except.map]⟩

/-- Every key of the Defaults Table has a `switch` branch: the
defensive `default:` throw is unreachable from the pristine table. -/
theorem defaults_keys_covered :
    ∀ k ∈ keys defaultSettings, (coerceRule k).isSome := by decide

/-- On any non-empty input, the validator over the pristine Defaults
Table succeeds, and the patch is characterised key by key. -/
theorem getValidDocumentForUpdate_ok (data : Doc) (hne : data ≠ []) :
    ∃ patch, getValidDocumentForUpdate defaultSettings data = .ok patch ∧
      ∀ k, getKey patch k =
        if k ∈ keys defaultSettings then (getKey data k).bind (coerceField k)
        else none := by
  obtain ⟨p, hp⟩ :=
    validateKeys_isOk data (keys defaultSettings) defaults_keys_covered
  have hemp : data.isEmpty = false := by
    cases data with
    | nil => exact absurd rfl hne
    | cons a l => rfl
  refine ⟨p, ?_, fun k => validateKeys_lookup data _ p hp k⟩
  simp [getValidDocumentForUpdate, hemp, hp]

/-! ## Lemmas about the merge/projection engine -/

theorem mergedData_cases (defaults : Doc) (r : Option Doc) :
    mergedData defaults r = delKey (objAssign defaults (r.getD [])) "_id" ∨
    mergedData defaults r =
      setKey (delKey (objAssign defaults (r.getD [])) "_id") "domain"
        (.str "") := by
  unfold mergedData
  split
  · right; rfl
  · right; rfl
  · left; rfl

theorem getKey_mergedData_id (defaults : Doc) (r : Option Doc) :
    getKey (mergedData defaults r) "_id" = none := by
  rcases mergedData_cases defaults r with h | h <;> rw [h]
  · rw [getKey_delKey, if_pos rfl]
  · rw [getKey_setKey, if_neg (by decide), getKey_delKey, if_pos rfl]

theorem getKey_mergedData_of_ne (defaults : Doc) (r : Option Doc)
    (k : String) (hk : k ≠ "_id") (hkd : k ≠ "domain") :
    getKey (mergedData defaults r) k =
      getKey (objAssign defaults (r.getD [])) k := by
  rcases mergedData_cases defaults r with h | h <;> rw [h]
  · rw [getKey_delKey, if_neg hk]
  · rw [getKey_setKey, if_neg hkd, getKey_delKey, if_neg hk]

theorem getKey_mergedData_ne_none (defaults : Doc) (r : Option Doc)
    (k : String) (hk : k ≠ "_id") (h : getKey defaults k ≠ none) :
    getKey (mergedData defaults r) k ≠ none := by
  have h2 : getKey (delKey (objAssign defaults (r.getD [])) "_id") k ≠
      none := by
    rw [getKey_delKey, if_neg hk]
    exact getKey_objAssign_ne_none _ _ _ h
  rcases mergedData_cases defaults r with hm | hm <;> rw [hm]
  · exact h2
  · rw [getKey_setKey]
    by_cases hkd : k = "domain" <;> simp [hkd, h2]

/-- The merged `domain` of a record whose persisted `domain`, if
present, is a string or `null` (the §3 schema), is always a string. -/
theorem mergedData_domain_str (r : Doc) (hnd : (keys r).Nodup)
    (hdom : getKey r "domain" = none ∨
      getKey r "domain" = some Value.null ∨
      ∃ d, getKey r "domain" = some (Value.str d)) :
    ∃ d, getKey (mergedData defaultSettings (some r)) "domain" =
      some (Value.str d) := by
  have hgd : ∀ v, getKey (objAssign defaultSettings r) "domain" = some v →
      getKey (delKey (objAssign defaultSettings r) "_id") "domain" =
        some v := by
    intro v hv
    rw [getKey_delKey, if_neg (by decide)]
    exact hv
  rcases hdom with h | h | ⟨d, h⟩
  · have h0 : getKey (objAssign defaultSettings r) "domain" =
        some (.str "") := by
      rw [getKey_objAssign_of_none _ _ _ h]; rfl
    have hm : mergedData defaultSettings (some r) =
        delKey (objAssign defaultSettings r) "_id" := by
      unfold mergedData
      simp only [Option.getD_some]
      rw [hgd _ h0]
    exact ⟨"", by rw [hm]; exact hgd _ h0⟩
  · have h0 : getKey (objAssign defaultSettings r) "domain" =
        some Value.null := getKey_objAssign_of_some _ _ _ _ hnd h
    have hm : mergedData defaultSettings (some r) =
        setKey (delKey (objAssign defaultSettings r) "_id") "domain"
          (.str "") := by
      unfold mergedData
      simp only [Option.getD_some]
      rw [hgd _ h0]
    exact ⟨"", by rw [hm, getKey_setKey, if_pos rfl]⟩
  · have h0 : getKey (objAssign defaultSettings r) "domain" =
        some (.str d) := getKey_objAssign_of_some _ _ _ _ hnd h
    have hm : mergedData defaultSettings (some r) =
        delKey (objAssign defaultSettings r) "_id" := by
      unfold mergedData
      simp only [Option.getD_some]
      rw [hgd _ h0]
    exact ⟨d, by rw [hm]; exact hgd _ h0⟩

theorem mergedData_logo_file (r : Doc) (hnd : (keys r).Nodup) :
    getKey (mergedData defaultSettings (some r)) "logo_file" =
      some ((getKey r "logo_file").getD Value.null) := by
  rw [getKey_mergedData_of_ne _ _ _ (by decide) (by decide)]
  cases h : getKey r "logo_file" with
  | none =>
    rw [Option.getD_some, getKey_objAssign_of_none _ _ _ h]
    rfl
  | some v =>
    rw [Option.getD_some, getKey_objAssign_of_some _ _ _ _ hnd h]
    rfl

theorem logoFileOf_eq_some (data : Doc) (s : String)
    (h : getKey data "logo_file" = some (.str s)) (hs : s ≠ "") :
    logoFileOf data = some s := by
  unfold logoFileOf
  rw [h]
  simp [hs]

theorem changeProperties_logo_str (defaults : Doc) (r : Option Doc)
    (s dm : String)
    (hl : getKey (mergedData defaults r) "logo_file" = some (.str s))
    (hs : s ≠ "")
    (hd : getKey (mergedData defaults r) "domain" = some (.str dm)) :
    changeProperties defaults r =
      some (setKey (mergedData defaults r) "logo"
        (.str (urlResolve dm (filesUploadUrl ++ "/" ++ s)))) := by
  unfold changeProperties
  simp only [hl]
  rw [if_neg hs]
  simp only [hd]

theorem changeProperties_of_logoFileOf_none (defaults : Doc)
    (r : Option Doc) (h : logoFileOf (mergedData defaults r) = none) :
    changeProperties defaults r =
      some (setKey (mergedData defaults r) "logo" Value.null) := by
  unfold changeProperties
  unfold logoFileOf at h
  cases hl : getKey (mergedData defaults r) "logo_file" with
  | none => simp only [hl]
  | some v =>
    rw [hl] at h
    cases v with
    | str s =>
      by_cases hs : s = ""
      · subst hs; simp [hl]
      · simp only [hs] at h
        simp [hs] at h
    | num n => simp only [hl]
    | bool b => simp only [hl]
    | null => simp only [hl]

/-! ## Claim theorems -/

/-- Claim C1 (code bug evidence): for the empty input mapping the
validator *returns* — does not throw — the `Error` carrying the
empty-input message, and `update({})` on an empty repository does not
propagate any failure: it seeds the Defaults Table into the collection
and resolves with a settings view, so a write does happen. -/
theorem C1_empty_update_not_rejected :
    getValidDocumentForUpdate defaultSettings [] =
      .errReturned "Required fields are missing" ∧
    (updateSettings [] (initialState none)).toOption.map
        (fun p => p.2.dbSettings) = some (some defaultSettings) :=
  ⟨rfl, rfl⟩

/-- Claim C2 (code bug evidence): the read path does not work on a
fresh copy — `changeProperties` merges into `this.defaultSettings`
itself, so after one `getSettings` over a record `{language: "fr"}` the
Defaults Table maps `language` to `"fr"` instead of its original
default `"en"`, and has gained an extra `logo` key it never had. -/
theorem C2_read_mutates_defaults_table :
    getKey defaultSettings "language" = some (Value.str "en") ∧
    getKey defaultSettings "logo" = none ∧
    (getSettings (initialState (some [("language", Value.str "fr")]))).map
        (fun p => (getKey p.2.defaults "language",
                   getKey p.2.defaults "logo")) =
      some (some (Value.str "fr"), some Value.null) :=
  ⟨rfl, rfl, rfl⟩

/-- Claim C5: on an absent (`null`) or empty persisted record, the view
is exactly the Defaults Table plus `logo: null` — same values, no other
keys. -/
theorem C5_view_of_empty_record_is_defaults :
    changeProperties defaultSettings none =
      some (defaultSettings ++ [("logo", Value.null)]) ∧
    changeProperties defaultSettings (some []) =
      some (defaultSettings ++ [("logo", Value.null)]) :=
  ⟨rfl, rfl⟩

/-- Claim C7: on any non-empty input the validator succeeds, and the
patch holds exactly the Defaults Table keys that are present in the
input (each coerced by its rule); keys outside the table — like the
whole of `{unrelated_field: "x"}` — are silently dropped, and keys
absent from the input never appear. -/
theorem C7_patch_exactly_recognized_present_keys (data : Doc)
    (hne : data ≠ []) :
    ∃ patch, getValidDocumentForUpdate defaultSettings data = .ok patch ∧
      (∀ k, getKey defaultSettings k = none → getKey patch k = none) ∧
      (∀ k, getKey defaultSettings k ≠ none →
        getKey patch k = (getKey data k).bind (coerceField k)) ∧
      getValidDocumentForUpdate defaultSettings
        [("unrelated_field", Value.str "x")] = .ok [] := by
  obtain ⟨p, hp, hchar⟩ := getValidDocumentForUpdate_ok data hne
  refine ⟨p, hp, ?_, ?_, rfl⟩
  · intro k hk
    rw [hchar k, if_neg]
    rw [mem_keys_iff]
    simp [hk]
  · intro k hk
    rw [hchar k, if_pos ((mem_keys_iff _ _).2 hk)]

theorem C7_witness :
    ([("currency_code", Value.str "EUR")] : Doc) ≠ [] ∧
    (∃ patch, getValidDocumentForUpdate defaultSettings
          [("currency_code", Value.str "EUR")] = .ok patch ∧
      (∀ k, getKey defaultSettings k = none → getKey patch k = none) ∧
      (∀ k, getKey defaultSettings k ≠ none →
        getKey patch k =
          (getKey [("currency_code", Value.str "EUR")] k).bind
            (coerceField k)) ∧
      getValidDocumentForUpdate defaultSettings
        [("unrelated_field", Value.str "x")] = .ok []) :=
  ⟨by decide,
   C7_patch_exactly_recognized_present_keys
     [("currency_code", Value.str "EUR")] (by decide)⟩

/-- Claim C8: a `products_limit` present in the input is mapped to
exactly `parse.getNumberIfPositive` of it — on invalid input the
sentinel (`null`) lands in the patch as is — whereas `decimal_number`
gets the `|| 0` fallback; the closing conjunct shows both on the same
invalid input. -/
theorem C8_products_limit_sentinel_propagated (data : Doc) (v : Value)
    (hv : getKey data "products_limit" = some v) :
    ∃ patch, getValidDocumentForUpdate defaultSettings data = .ok patch ∧
      getKey patch "products_limit" = some (getNumberIfPositive v) ∧
      (∀ w, getKey data "decimal_number" = some w →
        getKey patch "decimal_number" =
          some (jsOr (getNumberIfPositive w) (Value.num 0))) ∧
      getValidDocumentForUpdate defaultSettings
          [("products_limit", Value.str "oops"),
           ("decimal_number", Value.str "oops")] =
        .ok [("decimal_number", Value.num 0),
             ("products_limit", Value.null)] := by
  have hne : data ≠ [] := by
    intro h
    subst h
    simp [getKey] at hv
  obtain ⟨p, hp, hchar⟩ := getValidDocumentForUpdate_ok data hne
  refine ⟨p, hp, ?_, ?_, rfl⟩
  · rw [hchar _, if_pos (by decide), hv]
    rfl
  · intro w hw
    rw [hchar _, if_pos (by decide), hw]
    rfl

theorem C8_witness :
    getKey [("products_limit", Value.str "oops"),
            ("decimal_number", Value.str "oops")] "products_limit" =
      some (Value.str "oops") ∧
    (∃ patch, getValidDocumentForUpdate defaultSettings
          [("products_limit", Value.str "oops"),
           ("decimal_number", Value.str "oops")] = .ok patch ∧
      getKey patch "products_limit" =
        some (getNumberIfPositive (Value.str "oops")) ∧
      (∀ w, getKey [("products_limit", Value.str "oops"),
              ("decimal_number", Value.str "oops")] "decimal_number" =
          some w →
        getKey patch "decimal_number" =
          some (jsOr (getNumberIfPositive w) (Value.num 0))) ∧
      getValidDocumentForUpdate defaultSettings
          [("products_limit", Value.str "oops"),
           ("decimal_number", Value.str "oops")] =
        .ok [("decimal_number", Value.num 0),
             ("products_limit", Value.null)]) :=
  ⟨by decide,
   C8_products_limit_sentinel_propagated
     [("products_limit", Value.str "oops"),
      ("decimal_number", Value.str "oops")]
     (Value.str "oops") (by decide)⟩

/-- Claim C10 (implicit): `logo_file` runs through the plain string
rule, so a present `logo_file` is persisted as `parse.getString` of it
— a string, never `null`; in particular `update({logo_file: null})`
stores the empty string, and the refreshed view still reports
`logo: null` because the empty string fails the non-empty test. -/
theorem C10_logo_file_coerced_to_string (data : Doc) (v : Value)
    (hv : getKey data "logo_file" = some v) :
    (∃ patch, getValidDocumentForUpdate defaultSettings data = .ok patch ∧
       getKey patch "logo_file" = some (.str (parseGetString v))) ∧
    (updateSettings [("logo_file", Value.null)]
        (initialState (some defaultSettings))).toOption.map
        (fun p => (getKey (p.2.dbSettings.getD []) "logo_file",
                   getKey p.1 "logo")) =
      some (some (Value.str ""), some Value.null) := by
  constructor
  · have hne : data ≠ [] := by
      intro h
      subst h
      simp [getKey] at hv
    obtain ⟨p, hp, hchar⟩ := getValidDocumentForUpdate_ok data hne
    refine ⟨p, hp, ?_⟩
    rw [hchar _, if_pos (by decide), hv]
    rfl
  · rfl

theorem C10_witness :
    getKey [("logo_file", Value.null)] "logo_file" = some Value.null ∧
    ((∃ patch, getValidDocumentForUpdate defaultSettings
          [("logo_file", Value.null)] = .ok patch ∧
       getKey patch "logo_file" =
         some (.str (parseGetString Value.null))) ∧
     (updateSettings [("logo_file", Value.null)]
        (initialState (some defaultSettings))).toOption.map
        (fun p => (getKey (p.2.dbSettings.getD []) "logo_file",
                   getKey p.1 "logo")) =
      some (some (Value.str ""), some Value.null)) :=
  ⟨by decide,
   C10_logo_file_coerced_to_string [("logo_file", Value.null)]
     Value.null (by decide)⟩

theorem mergedData_domain_of_str (r : Doc) (hnd : (keys r).Nodup)
    (d : String) (h : getKey r "domain" = some (Value.str d)) :
    getKey (mergedData defaultSettings (some r)) "domain" =
      some (Value.str d) := by
  have h0 : getKey (objAssign defaultSettings r) "domain" =
      some (.str d) := getKey_objAssign_of_some _ _ _ _ hnd h
  have h1 : getKey (delKey (objAssign defaultSettings r) "_id") "domain" =
      some (.str d) := by
    rw [getKey_delKey, if_neg (by decide)]
    exact h0
  have hm : mergedData defaultSettings (some r) =
      delKey (objAssign defaultSettings r) "_id" := by
    unfold mergedData
    simp only [Option.getD_some]
    rw [h1]
  rw [hm]
  exact h1

/-- Claim C4: over any persisted record within the §3 schema for
`domain` (string, `null` or absent) and without duplicate keys, the
read path yields a view that has every Defaults Table key bound (no
`undefined`), has no `_id` binding, and whose `logo` is a string or
`null`. -/
theorem C4_view_complete_no_id_wellformed_logo (r : Doc)
    (hnd : (keys r).Nodup)
    (hdom : getKey r "domain" = none ∨
      getKey r "domain" = some Value.null ∨
      ∃ d, getKey r "domain" = some (Value.str d)) :
    ∃ view, changeProperties defaultSettings (some r) = some view ∧
      (∀ k, getKey defaultSettings k ≠ none → getKey view k ≠ none) ∧
      getKey view "_id" = none ∧
      (getKey view "logo" = some Value.null ∨
        ∃ s, getKey view "logo" = some (Value.str s)) := by
  have main : ∀ z : Value,
      (∀ k, getKey defaultSettings k ≠ none →
        getKey (setKey (mergedData defaultSettings (some r)) "logo" z) k ≠
          none) ∧
      getKey (setKey (mergedData defaultSettings (some r)) "logo" z)
          "_id" = none ∧
      getKey (setKey (mergedData defaultSettings (some r)) "logo" z)
          "logo" = some z := by
    intro z
    refine ⟨?_, ?_, ?_⟩
    · intro k hk
      have hkid : k ≠ "_id" := by
        intro hid
        subst hid
        exact hk rfl
      rw [getKey_setKey]
      by_cases hkl : k = "logo"
      · simp [hkl]
      · rw [if_neg hkl]
        exact getKey_mergedData_ne_none _ _ _ hkid hk
    · rw [getKey_setKey, if_neg (by decide), getKey_mergedData_id]
    · rw [getKey_setKey, if_pos rfl]
  cases hlf : getKey (mergedData defaultSettings (some r)) "logo_file" with
  | some v =>
    cases v with
    | str s =>
      by_cases hs : s = ""
      · subst hs
        have hn : logoFileOf (mergedData defaultSettings (some r)) =
            none := by
          unfold logoFileOf
          rw [hlf]
          rfl
        refine ⟨_, changeProperties_of_logoFileOf_none _ _ hn, (main _).1,
          (main _).2.1, Or.inl (main _).2.2⟩
      · obtain ⟨dm, hdm⟩ := mergedData_domain_str r hnd hdom
        refine ⟨_, changeProperties_logo_str _ _ s dm hlf hs hdm, (main _).1,
          (main _).2.1, Or.inr ⟨_, (main _).2.2⟩⟩
    | num n =>
      have hn : logoFileOf (mergedData defaultSettings (some r)) = none := by
        unfold logoFileOf
        rw [hlf]
      refine ⟨_, changeProperties_of_logoFileOf_none _ _ hn, (main _).1,
        (main _).2.1, Or.inl (main _).2.2⟩
    | bool b =>
      have hn : logoFileOf (mergedData defaultSettings (some r)) = none := by
        unfold logoFileOf
        rw [hlf]
      refine ⟨_, changeProperties_of_logoFileOf_none _ _ hn, (main _).1,
        (main _).2.1, Or.inl (main _).2.2⟩
    | null =>
      have hn : logoFileOf (mergedData defaultSettings (some r)) = none := by
        unfold logoFileOf
        rw [hlf]
      refine ⟨_, changeProperties_of_logoFileOf_none _ _ hn, (main _).1,
        (main _).2.1, Or.inl (main _).2.2⟩
  | none =>
    have hn : logoFileOf (mergedData defaultSettings (some r)) = none := by
      unfold logoFileOf
      rw [hlf]
    refine ⟨_, changeProperties_of_logoFileOf_none _ _ hn, (main _).1,
      (main _).2.1, Or.inl (main _).2.2⟩

theorem C4_witness :
    ((keys [("language", Value.str "fr")]).Nodup ∧
      (getKey [("language", Value.str "fr")] "domain" = none ∨
        getKey [("language", Value.str "fr")] "domain" = some Value.null ∨
        ∃ d, getKey [("language", Value.str "fr")] "domain" =
          some (Value.str d))) ∧
    ∃ view, changeProperties defaultSettings
        (some [("language", Value.str "fr")]) = some view ∧
      (∀ k, getKey defaultSettings k ≠ none → getKey view k ≠ none) ∧
      getKey view "_id" = none ∧
      (getKey view "logo" = some Value.null ∨
        ∃ s, getKey view "logo" = some (Value.str s)) :=
  ⟨⟨by decide, Or.inl (by decide)⟩,
   C4_view_complete_no_id_wellformed_logo [("language", Value.str "fr")]
     (by decide) (Or.inl (by decide))⟩

/-- Claim C6: when the record's `logo_file` is a non-empty string and
`domain` a string, the view's `logo` is exactly
`url.resolve(domain, filesUploadUrl + "/" + logo_file)`; when
`logo_file` is absent, `null` or empty, `logo` is `null`; and on the
spec's example base the resolution is the absolute URL
`domain ++ upload path ++ "/x.png"`. -/
theorem C6_logo_url_resolution (r : Doc) (hnd : (keys r).Nodup) :
    (∀ s d, getKey r "logo_file" = some (Value.str s) → s ≠ "" →
      getKey r "domain" = some (Value.str d) →
      ∃ view, changeProperties defaultSettings (some r) = some view ∧
        getKey view "logo" =
          some (Value.str (urlResolve d (filesUploadUrl ++ "/" ++ s)))) ∧
    ((getKey r "logo_file" = none ∨
        getKey r "logo_file" = some Value.null ∨
        getKey r "logo_file" = some (Value.str "")) →
      ∃ view, changeProperties defaultSettings (some r) = some view ∧
        getKey view "logo" = some Value.null) ∧
    urlResolve "http://shop.test" (filesUploadUrl ++ "/" ++ "x.png") =
      "http://shop.test" ++ (filesUploadUrl ++ "/" ++ "x.png") := by
  refine ⟨?_, ?_, rfl⟩
  · intro s d hl hs hd
    have hml : getKey (mergedData defaultSettings (some r)) "logo_file" =
        some (Value.str s) := by
      rw [mergedData_logo_file r hnd, hl]
      rfl
    have hmd := mergedData_domain_of_str r hnd d hd
    refine ⟨_, changeProperties_logo_str _ _ s d hml hs hmd, ?_⟩
    rw [getKey_setKey, if_pos rfl]
  · intro h
    have hn : logoFileOf (mergedData defaultSettings (some r)) = none := by
      unfold logoFileOf
      rw [mergedData_logo_file r hnd]
      rcases h with h | h | h <;> rw [h] <;> rfl
    refine ⟨_, changeProperties_of_logoFileOf_none _ _ hn, ?_⟩
    rw [getKey_setKey, if_pos rfl]

theorem C6_witness :
    (keys [("domain", Value.str "http://shop.test"),
           ("logo_file", Value.str "x.png")]).Nodup ∧
    getKey [("domain", Value.str "http://shop.test"),
            ("logo_file", Value.str "x.png")] "logo_file" =
      some (Value.str "x.png") ∧
    ("x.png" : String) ≠ "" ∧
    getKey [("domain", Value.str "http://shop.test"),
            ("logo_file", Value.str "x.png")] "domain" =
      some (Value.str "http://shop.test") ∧
    ∃ view, changeProperties defaultSettings
        (some [("domain", Value.str "http://shop.test"),
               ("logo_file", Value.str "x.png")]) = some view ∧
      getKey view "logo" =
        some (Value.str
          (urlResolve "http://shop.test"
            (filesUploadUrl ++ "/" ++ "x.png"))) :=
  ⟨by decide, by decide, by decide, by decide,
   (C6_logo_url_resolution
       [("domain", Value.str "http://shop.test"),
        ("logo_file", Value.str "x.png")] (by decide)).1
     "x.png" "http://shop.test" (by decide) (by decide) (by decide)⟩

/-- Claim C3: `update` ensures the singleton exists — with zero
persisted records the Defaults Table is seeded verbatim, with a record
present no seed happens — then upserts the validated patch with `$set`
merge semantics (keys absent from the patch keep their prior or
default value) and resolves with the refreshed view of the merged
record. -/
theorem C3_update_seeds_then_merges (data patch : Doc) (db : Option Doc)
    (hval : getValidDocumentForUpdate defaultSettings data = .ok patch) :
    (db = none →
      (insertDefaultSettingsIfEmpty (initialState db)).dbSettings =
        some defaultSettings) ∧
    (∀ d, db = some d →
      insertDefaultSettingsIfEmpty (initialState db) = initialState db) ∧
    (∀ view,
      changeProperties defaultSettings
          (some (objAssign (db.getD defaultSettings) patch)) = some view →
      updateSettings data (initialState db) =
        .ok (view,
          { defaults := view,
            dbSettings :=
              some (objAssign (db.getD defaultSettings) patch) })) ∧
    (∀ k, getKey patch k = none →
      getKey (objAssign (db.getD defaultSettings) patch) k =
        getKey (db.getD defaultSettings) k) := by
  refine ⟨?_, ?_, ?_, ?_⟩
  · intro h
    subst h
    rfl
  · intro d h
    subst h
    rfl
  · intro view hview
    unfold updateSettings
    have hdef : (initialState db).defaults = defaultSettings := rfl
    rw [hdef, hval]
    cases db with
    | none =>
      unfold runUpdate insertDefaultSettingsIfEmpty updateOneSetUpsert
        getSettings
      simp only [initialState, Option.getD_none] at *
      rw [hview]
    | some d =>
      unfold runUpdate insertDefaultSettingsIfEmpty updateOneSetUpsert
        getSettings
      simp only [initialState, Option.getD_some] at *
      rw [hview]
  · intro k hk
    exact getKey_objAssign_of_none _ _ _ hk

theorem C3_witness :
    getValidDocumentForUpdate defaultSettings
        [("currency_code", Value.str "EUR")] =
      .ok [("currency_code", Value.str "EUR")] ∧
    updateSettings [("currency_code", Value.str "EUR")]
        (initialState none) =
      .ok (objAssign defaultSettings [("currency_code", Value.str "EUR")] ++
            [("logo", Value.null)],
          { defaults :=
              objAssign defaultSettings
                  [("currency_code", Value.str "EUR")] ++
                [("logo", Value.null)],
            dbSettings :=
              some (objAssign defaultSettings
                [("currency_code", Value.str "EUR")]) }) :=
  ⟨by decide,
   (C3_update_seeds_then_merges [("currency_code", Value.str "EUR")]
       [("currency_code", Value.str "EUR")] none (by decide)).2.2.1
     (objAssign defaultSettings [("currency_code", Value.str "EUR")] ++
       [("logo", Value.null)])
     (by decide)⟩

/-- Claim C9: when the current view's `logo_file` is not a non-empty
string, `deleteLogo` is a no-op — no `fs.unlink`, no write, repository
unchanged; when it is a non-empty string, the file path is handed to
`fs.unlink` and the write path is invoked with `{logo_file: null}`,
and the outcome is identical whether or not the deletion errored. -/
theorem C9_delete_logo_branches (db : Option Doc) (e : Bool) (view : Doc)
    (st1 : ServiceState)
    (h : getSettings (initialState db) = some (view, st1)) :
    (logoFileOf view = none →
      deleteLogo e (initialState db) =
        some ({ unlinkAttempted := none, updateCalled := none }, st1) ∧
      st1.dbSettings = db) ∧
    (∀ s, logoFileOf view = some s →
      (∀ eff st2, deleteLogo e (initialState db) = some (eff, st2) →
        eff.unlinkAttempted = some (filesUploadPath ++ "/" ++ s) ∧
        eff.updateCalled = some [("logo_file", Value.null)]) ∧
      deleteLogo e (initialState db) =
        deleteLogo (!e) (initialState db)) := by
  have hdb : st1.dbSettings = db := by
    unfold getSettings at h
    cases hc : changeProperties (initialState db).defaults
        (initialState db).dbSettings with
    | none =>
      rw [hc] at h
      cases h
    | some v =>
      simp only [hc, Option.some.injEq, Prod.mk.injEq] at h
      rw [← h.2]
      rfl
  constructor
  · intro hlf
    refine ⟨?_, hdb⟩
    unfold deleteLogo
    simp only [h, hlf]
  · intro s hlf
    refine ⟨?_, rfl⟩
    intro eff st2 hdel
    unfold deleteLogo at hdel
    simp only [h, hlf] at hdel
    cases hu : updateSettings [("logo_file", Value.null)] st1 with
    | error m =>
      rw [hu] at hdel
      cases hdel
    | ok p =>
      obtain ⟨v2, st2m⟩ := p
      simp only [hu, Option.some.injEq, Prod.mk.injEq] at hdel
      rw [← hdel.1]
      exact ⟨rfl, rfl⟩

theorem C9_witness :
    getSettings (initialState none) =
      some (defaultSettings ++ [("logo", Value.null)],
        { defaults := defaultSettings ++ [("logo", Value.null)],
          dbSettings := none }) ∧
    ((logoFileOf (defaultSettings ++ [("logo", Value.null)]) = none →
      deleteLogo true (initialState none) =
        some ({ unlinkAttempted := none, updateCalled := none },
          { defaults := defaultSettings ++ [("logo", Value.null)],
            dbSettings := none }) ∧
      ({ defaults := defaultSettings ++ [("logo", Value.null)],
         dbSettings := none } : ServiceState).dbSettings = none) ∧
    (∀ s, logoFileOf (defaultSettings ++ [("logo", Value.null)]) = some s →
      (∀ eff st2, deleteLogo true (initialState none) = some (eff, st2) →
        eff.unlinkAttempted = some (filesUploadPath ++ "/" ++ s) ∧
        eff.updateCalled = some [("logo_file", Value.null)]) ∧
      deleteLogo true (initialState none) =
        deleteLogo (!true) (initialState none))) :=
  ⟨by decide,
   C9_delete_logo_branches none true
     (defaultSettings ++ [("logo", Value.null)])
     { defaults := defaultSettings ++ [("logo", Value.null)],
       dbSettings := none }
     (by decide)⟩
